import Mathlib

/-!
Verification of RefineM's scaffold classification and window generation
(`refinem/outliers.py` and `refinem/singlegenome.py`).

Numeric values (GC percentages, tetranucleotide distances, coverages,
thresholds) are modelled as rationals.  The one floating-point phenomenon
the code relies on — `np.mean([])` returning NaN, and every ordered
comparison against NaN being false — is modelled by returning `none` from
`npMean` on an empty list and letting a comparison against `none` be false.
The external SciPy function `pearsonr` is a parameter of every definition
that calls it, since both call sites pass it the same arguments.
-/

namespace RefineM

/-- The four divergence signals of `Outliers.identify` / `Outliers.compatible`
(the strings appended to `outlying_dists` / `compatible_dists`). -/
inductive Signal where
  | GC
  | TD
  | COV_CORR
  | COV_PERC
deriving DecidableEq, Repr

/-- Per-scaffold statistics consumed by the classifiers
(fields of `ScaffoldStats.stats[scaffold_id]` that the classifiers read). -/
structure ScaffoldRecord where
  gc : ℚ
  len : ℕ
  signature : List ℚ
  coverage : List ℚ
deriving Repr

/-- Per-genome aggregate statistics (fields of `genome_stats[genome_id]`
that the classifiers read). -/
structure GenomeRecord where
  mean_gc : ℚ
  mean_signature : List ℚ
  mean_coverage : List ℚ
  mean_td : ℚ
deriving Repr

/-- `Outliers.__init__`: `self.min_required_coverage = 0.01`. -/
def min_required_coverage : ℚ := 1 / 100

/-- Manhattan distance between two signature vectors: sum of absolute
elementwise differences (external `GenomicSignature.manhattan` helper,
as defined in the glossary). -/
def manhattan (a b : List ℚ) : ℚ :=
  ((a.zip b).map (fun p => |p.1 - p.2|)).sum

/-- `np.mean` of a list of rationals: `none` models the NaN produced on an
empty list; every ordered comparison against `none` is false, as for NaN. -/
def npMean (l : List ℚ) : Option ℚ :=
  if l.isEmpty then none else some (l.sum / (l.length : ℚ))

/-- The flag list built by appending, in order, `GC`, `TD`, `COV_CORR`,
`COV_PERC` when the corresponding condition holds (shared shape of
`outlying_dists` in `identify` and `compatible_dists` in `compatible`). -/
def flagList (gc td covCorr covPerc : Bool) : List Signal :=
  (if gc then [Signal.GC] else []) ++ (if td then [Signal.TD] else [])
    ++ (if covCorr then [Signal.COV_CORR] else [])
    ++ (if covPerc then [Signal.COV_PERC] else [])

/-- Result of the per-scaffold outlier evaluation in `Outliers.identify`:
the `outlying_dists` list plus the reported `corr_r` and `mean_cp` values. -/
structure OutlierResult where
  outlying_dists : List Signal
  corr_r : ℚ
  mean_cp : ℚ
deriving Repr

/-- Per-scaffold body of `Outliers.identify` (outliers.py lines 276-307),
with the GC/TD bounds already resolved from the reference distributions and
the external `pearsonr` passed as `pearson`.  `delta_gc` is an outlier when
outside `[gc_lower_bound, gc_upper_bound]`; `delta_td` when above `td_bound`;
the coverage correlation only when the genome coverage vector has more than
one dimension and the correlation is below `cov_corr`; the mean coverage
percent error is averaged over the dimensions whose genome coverage is at
least `min_required_coverage`, is the sentinel `-1` with an automatic flag
when no dimension qualifies, and is otherwise an outlier when above
`cov_perc`. -/
def identify_eval (pearson : List ℚ → List ℚ → ℚ)
    (gc_lower_bound gc_upper_bound td_bound cov_corr cov_perc : ℚ)
    (gs : GenomeRecord) (stats : ScaffoldRecord) : OutlierResult :=
  let delta_gc := (stats.gc - gs.mean_gc) / 100
  let delta_td := manhattan stats.signature gs.mean_signature
  let gcFlag := decide (delta_gc < gc_lower_bound) || decide (gc_upper_bound < delta_gc)
  let tdFlag := decide (td_bound < delta_td)
  let corr_r := if 1 < gs.mean_coverage.length then pearson gs.mean_coverage stats.coverage else 1
  let covCorrFlag := decide (1 < gs.mean_coverage.length) && decide (corr_r < cov_corr)
  let cps := ((gs.mean_coverage.zip stats.coverage).filter
      (fun p => decide (min_required_coverage ≤ p.1))).map
      (fun p => |p.2 - p.1| * 100 / p.1)
  let mcp : ℚ × Bool :=
    if cps.isEmpty then
      (-1, true)
    else
      let m := cps.sum / (cps.length : ℚ)
      (m, decide (cov_perc < m))
  { outlying_dists := flagList gcFlag tdFlag covCorrFlag mcp.2
    corr_r := corr_r
    mean_cp := mcp.1 }

/-- `Outliers.identify` line 310: a scaffold's row is written exactly when
`(report_type == 'any' and len(outlying_dists) >= 1) or
 (report_type == 'all' and len(outlying_dists) >= 3)`. -/
def shouldReport (report_type : String) (dists : List Signal) : Bool :=
  (report_type == "any" && decide (1 ≤ dists.length))
    || (report_type == "all" && decide (3 ≤ dists.length))

/-- Whether `Outliers.identify` writes a report row for a given scaffold:
the reporting condition applied to the scaffold's outlier evaluation. -/
def identifyReports (pearson : List ℚ → List ℚ → ℚ)
    (gc_lower_bound gc_upper_bound td_bound cov_corr cov_perc : ℚ)
    (report_type : String) (gs : GenomeRecord) (stats : ScaffoldRecord) : Bool :=
  shouldReport report_type
    (identify_eval pearson gc_lower_bound gc_upper_bound td_bound cov_corr cov_perc gs stats).outlying_dists

/-- Result of the per-(scaffold, genome) compatibility evaluation in
`Outliers.compatible`: the `compatible_dists` list plus the reported
`corr_r` and `mean_cp` values (`mean_cp` is `none` when `np.mean` was
applied to an empty list, i.e. NaN). -/
structure CompatResult where
  compatible_dists : List Signal
  corr_r : ℚ
  mean_cp : Option ℚ
deriving Repr

/-- Per-(scaffold, genome) body of `Outliers.compatible` (outliers.py lines
403-428), with the GC/TD bounds already resolved and the external `pearsonr`
passed as `pearson`.  Each comparison of `identify` is inverted: inside the
GC bounds, `delta_td` at most `td_bound`, correlation at least `cov_corr`
(still only with more than one coverage dimension), and mean percent error
at most `cov_perc` each mean compatible.  The percent-error mean here is
`np.mean` of the qualifying-dimension list with no empty-list guard. -/
def compatible_eval (pearson : List ℚ → List ℚ → ℚ)
    (gc_lower_bound gc_upper_bound td_bound cov_corr cov_perc : ℚ)
    (gs : GenomeRecord) (ss : ScaffoldRecord) : CompatResult :=
  let delta_gc := (ss.gc - gs.mean_gc) / 100
  let delta_td := manhattan ss.signature gs.mean_signature
  let gcOk := decide (gc_lower_bound ≤ delta_gc) && decide (delta_gc ≤ gc_upper_bound)
  let tdOk := decide (delta_td ≤ td_bound)
  let corr_r := if 1 < gs.mean_coverage.length then pearson gs.mean_coverage ss.coverage else 1
  let covCorrOk := decide (1 < gs.mean_coverage.length) && decide (cov_corr ≤ corr_r)
  let cps := ((gs.mean_coverage.zip ss.coverage).filter
      (fun p => decide (min_required_coverage ≤ p.1))).map
      (fun p => |p.1 - p.2| * 100 / p.1)
  let mean_cp := npMean cps
  let covPercOk := match mean_cp with
    | some m => decide (m ≤ cov_perc)
    | none => false
  { compatible_dists := flagList gcOk tdOk covCorrOk covPercOk
    corr_r := corr_r
    mean_cp := mean_cp }

/-! ### Window generation (`singlegenome.py`, class `WindowGen`) -/

/-- A Python value passed as `window_size` / `window_gap`: a string, an
`int`, a `float` (modelled as a rational), or a value of any other type
(`other`). -/
inductive PyVal where
  | str (s : String)
  | int (n : ℤ)
  | float (q : ℚ)
  | other
deriving DecidableEq, Repr

/-- A numeric Python value, as produced by the type coercion at the top of
`make_windows`: an `int` or a `float`. -/
inductive PyNum where
  | int (n : ℤ)
  | float (q : ℚ)
deriving DecidableEq, Repr

/-- The Python exceptions `make_windows` can raise. -/
inductive PyErr where
  | typeError
  | valueError
deriving DecidableEq, Repr

/-- Python `int(q)` on a float: truncation toward zero. -/
def pyInt (q : ℚ) : ℤ :=
  if 0 ≤ q then ⌊q⌋ else ⌈q⌉

/-- A nonnegative-or-wrapped Python slice index: a negative index counts
from the end of the sequence, and indices are clamped to the length. -/
def pyIdx (len : ℕ) (j : ℤ) : ℕ :=
  if j < 0 then (len + j).toNat else min j.toNat len

/-- Python `sequence[i:j]` (for the indices `make_windows` produces). -/
def pySlice {α : Type} (s : List α) (i j : ℤ) : List α :=
  (s.take (pyIdx s.length j)).drop (pyIdx s.length i)

/-- Python `range(0, stop, step)`: a `ValueError` when `step = 0`, empty
when `step < 0`, and otherwise `0, step, 2*step, ...` below `stop`. -/
def pyRange0 (stop : ℕ) (step : ℤ) : Except PyErr (List ℕ) :=
  if step = 0 then .error .valueError
  else if step < 0 then .ok []
  else .ok ((List.range ((stop + step.toNat - 1) / step.toNat)).map (· * step.toNat))

/-- Minimal model of Python `float(s)` for plain decimal literals such as
`"0.5"`: an optional leading minus, then digits with at most one dot. -/
def parseFloatPos (s : String) : Option ℚ :=
  match s.split (· == '.') with
  | [a] => if !a.isEmpty && a.all Char.isDigit then some ((a.toNat?.getD 0 : ℚ)) else none
  | [a, b] =>
      if (!a.isEmpty || !b.isEmpty) && a.all Char.isDigit && b.all Char.isDigit then
        some ((a.toNat?.getD 0 : ℚ) + (b.toNat?.getD 0 : ℚ) / 10 ^ b.length)
      else none
  | _ => none

/-- Signed decimal literal parsing for `float(s)`. -/
def parseFloat (s : String) : Option ℚ :=
  if s.startsWith "-" then (parseFloatPos (s.drop 1)).map Neg.neg
  else parseFloatPos s

/-- `WindowGen.type_convert`: try `int(num_str)`, and on a `ValueError`
fall back to `float(num_str)` (whose own failure is a `ValueError`). -/
def type_convert (num_str : String) : Except PyErr PyNum :=
  match num_str.toInt? with
  | some n => .ok (.int n)
  | none =>
      match parseFloat num_str with
      | some q => .ok (.float q)
      | none => .error .valueError

/-- The type dispatch at the top of `make_windows` (singlegenome.py lines
123-131), applied to each of `window_size` and `window_gap`: a string is
converted with `type_convert`, an `int` or `float` is kept, and any other
type raises a `TypeError`. -/
def coerceSizeArg : PyVal → Except PyErr PyNum
  | .str s => type_convert s
  | .int n => .ok (.int n)
  | .float q => .ok (.float q)
  | .other => .error .typeError

/-- The unit conversion of `make_windows` (singlegenome.py lines 134-146):
an `int` is an absolute length and kept as is; a `float` is a proportion of
the current scaffold's length and becomes `int(value * seq_length)`. -/
def resolveSizes : PyNum → PyNum → ℕ → ℤ × ℤ
  | .int n, .int m, _ => (n, m)
  | .int n, .float q, seq_length => (n, pyInt (q * seq_length))
  | .float q, .int m, seq_length => (pyInt (q * seq_length), m)
  | .float q, .float r, seq_length => (pyInt (q * seq_length), pyInt (r * seq_length))

/-- A window id: the components of the string
`"{seq_id}:{i}to{min(i + window_size, seq_length)}"` built by
`make_windows`; the encoding is injective, so the id is kept decoded. -/
structure WindowId where
  seqId : String
  start : ℤ
  stop : ℤ
deriving DecidableEq, Repr

/-- `WindowGen.make_windows`: coerce `window_size` and `window_gap` to
numbers (a `TypeError` for unsupported types), resolve proportional values
against the scaffold's own length, then slide from offset 0 with stride
`window_size + window_gap`, keeping a window exactly when its extracted
slice has length at least 100.  Returns the window id list and the window
slice list. -/
def make_windows (seq_id : String) (sequence : List Char)
    (window_size window_gap : PyVal) :
    Except PyErr (List WindowId × List (List Char)) := do
  let ws ← coerceSizeArg window_size
  let wg ← coerceSizeArg window_gap
  let starts ← pyRange0 sequence.length
    ((resolveSizes ws wg sequence.length).1 + (resolveSizes ws wg sequence.length).2)
  let kept : List ℕ := starts.filter
    (fun (i : ℕ) => decide (100 ≤
      (pySlice sequence (i : ℤ) ((i : ℤ) + (resolveSizes ws wg sequence.length).1)).length))
  return (kept.map (fun (i : ℕ) =>
            ⟨seq_id, (i : ℤ),
             min ((i : ℤ) + (resolveSizes ws wg sequence.length).1) (sequence.length : ℤ)⟩),
          kept.map (fun (i : ℕ) =>
            pySlice sequence (i : ℤ) ((i : ℤ) + (resolveSizes ws wg sequence.length).1)))

/-- The per-scaffold loop of `WindowGen.write_windows` restricted to the
data the link file depends on: each scaffold id paired with the ordered
window id list `make_windows` produced from it (`seq_win_id`).  Any error
raised by `make_windows` aborts the whole run. -/
def windowGroups (seqs : List (String × List Char)) (window_size window_gap : PyVal) :
    Except PyErr (List (String × List WindowId)) :=
  seqs.mapM (fun p => do
    let r ← make_windows p.1 p.2 window_size window_gap
    return (p.1, r.1))

/-- The consecutive pairs `(windows[i], windows[i+1])`,
`i = 0 .. len(windows) - 2`, of one scaffold's window list. -/
def consecutivePairs {α : Type} : List α → List (α × α)
  | a :: b :: rest => (a, b) :: consecutivePairs (b :: rest)
  | _ => []

/-- The pairs written by `WindowGen.write_links`: for each scaffold in the
window-group table, one pair per consecutive pair of its window id list. -/
def write_links_pairs (groups : List (String × List WindowId)) :
    List (WindowId × WindowId) :=
  (groups.map (fun g => consecutivePairs g.2)).flatten

/-! ### Closest-bin admission (`Outliers.add_compatible_closest`) -/

/-- A compatibility-table row for one scaffold: the candidate bin id and the
scaffold's `[gc_dist, td_dist, cov_dist]` to that bin. -/
abbrev BinStats := String × (ℚ × ℚ × ℚ)

/-- One step of the running-minimum update of `add_compatible_closest`
(outliers.py lines 179-184) for a single metric `f`: replace the best
`(distance, bin)` pair when the candidate's distance is strictly smaller. -/
def bestStep (f : BinStats → ℚ) (best : ℚ × Option String) (p : BinStats) :
    ℚ × Option String :=
  if f p < best.1 then (f p, some p.1) else best

/-- The running minimum of `add_compatible_closest` for one metric, started
at `[1e9, None]` as in the source. -/
def bestEntry (f : BinStats → ℚ) (bin_stats : List BinStats) : ℚ × Option String :=
  bin_stats.foldl (bestStep f) ((10 : ℚ) ^ 9, none)

/-- The single pass of `add_compatible_closest` over one scaffold's table
rows (outliers.py lines 174-184), tracking `best_gc`, `best_td` and
`best_cov` together. -/
def closestBins (bin_stats : List BinStats) :
    (ℚ × Option String) × (ℚ × Option String) × (ℚ × Option String) :=
  bin_stats.foldl
    (fun b p => (bestStep (fun r => r.2.1) b.1 p,
                 bestStep (fun r => r.2.2.1) b.2.1 p,
                 bestStep (fun r => r.2.2.2) b.2.2 p))
    (((10 : ℚ) ^ 9, none), ((10 : ℚ) ^ 9, none), ((10 : ℚ) ^ 9, none))

/-- The admission test of `add_compatible_closest` (outliers.py line 187):
the scaffold joins the current bin exactly when
`best_gc[1] == best_td[1] == best_cov[1]` and `best_gc[1] == cur_bin_id`. -/
def add_compatible_closest_admits (cur_bin_id : String) (bin_stats : List BinStats) : Bool :=
  let b := closestBins bin_stats
  (b.1.2 == b.2.1.2 && b.2.1.2 == b.2.2.2) && b.1.2 == some cur_bin_id

/-! ### Helper lemmas -/

theorem mem_flagList (s : Signal) (b1 b2 b3 b4 : Bool) :
    s ∈ flagList b1 b2 b3 b4 ↔
      ((s = .GC ∧ b1 = true) ∨ (s = .TD ∧ b2 = true)
        ∨ (s = .COV_CORR ∧ b3 = true) ∨ (s = .COV_PERC ∧ b4 = true)) := by
  cases b1 <;> cases b2 <;> cases b3 <;> cases b4 <;> cases s <;> simp [flagList]

theorem length_flagList (b1 b2 b3 b4 : Bool) :
    (flagList b1 b2 b3 b4).length = b1.toNat + b2.toNat + b3.toNat + b4.toNat := by
  cases b1 <;> cases b2 <;> cases b3 <;> cases b4 <;> simp [flagList]

/-! ### C1: reporting policy of `identify` -/

/-- C1: a scaffold is written to the report exactly when
`report_mode = "any"` and at least one of the four signals flagged it, or
`report_mode = "all"` and at least three of the four flagged it; in
particular a scaffold with exactly two flagged signals is not reported
under mode `"all"`. -/
theorem c1_identify_report_policy (pearson : List ℚ → List ℚ → ℚ)
    (lb ub tdB cc cp : ℚ) (mode : String) (gs : GenomeRecord) (ss : ScaffoldRecord) :
    (identifyReports pearson lb ub tdB cc cp mode gs ss = true ↔
      ((mode = "any" ∧ 1 ≤ (identify_eval pearson lb ub tdB cc cp gs ss).outlying_dists.length)
        ∨ (mode = "all" ∧ 3 ≤ (identify_eval pearson lb ub tdB cc cp gs ss).outlying_dists.length)))
    ∧ ((identify_eval pearson lb ub tdB cc cp gs ss).outlying_dists.length = 2 →
        identifyReports pearson lb ub tdB cc cp "all" gs ss = false) := by
  constructor
  · simp [identifyReports, shouldReport]
  · intro h
    simp [identifyReports, shouldReport, h]

/-- Witness for C1, with exactly two flagged signals under mode `"all"`. -/
theorem c1_identify_report_policy_witness :
    (identify_eval (fun _ _ => 0) (-4/100) (4/100) (1/10) (1/2) 10
        ⟨50, [1, 2], [5, 5], 0⟩ ⟨55, 1000, [1, 2], [5, 5]⟩).outlying_dists.length = 2
    ∧ identifyReports (fun _ _ => 0) (-4/100) (4/100) (1/10) (1/2) 10 "all"
        ⟨50, [1, 2], [5, 5], 0⟩ ⟨55, 1000, [1, 2], [5, 5]⟩ = false :=
  ⟨by norm_num [identify_eval, manhattan, min_required_coverage, flagList],
   (c1_identify_report_policy (fun _ _ => 0) (-4/100) (4/100) (1/10) (1/2) 10 "all"
      ⟨50, [1, 2], [5, 5], 0⟩ ⟨55, 1000, [1, 2], [5, 5]⟩).2
      (by norm_num [identify_eval, manhattan, min_required_coverage, flagList])⟩

/-! ### C2: zero qualifying coverage dimensions in `identify` -/

/-- C2: when no dimension of the genome's mean coverage vector reaches the
fixed minimum `0.01`, `identify` sets the mean coverage percent error to
the sentinel `-1` (no empty average is taken) and automatically flags
`COV_PERC`. -/
theorem c2_zero_coverage_sentinel (pearson : List ℚ → List ℚ → ℚ)
    (lb ub tdB cc cp : ℚ) (gs : GenomeRecord) (ss : ScaffoldRecord)
    (h : ∀ c ∈ gs.mean_coverage, c < min_required_coverage) :
    (identify_eval pearson lb ub tdB cc cp gs ss).mean_cp = -1
    ∧ Signal.COV_PERC ∈ (identify_eval pearson lb ub tdB cc cp gs ss).outlying_dists := by
  have hfilt : (gs.mean_coverage.zip ss.coverage).filter
      (fun p => decide (min_required_coverage ≤ p.1)) = [] := by
    rw [List.filter_eq_nil_iff]
    intro p hp
    have h1 : p.1 ∈ gs.mean_coverage := (List.of_mem_zip hp).1
    simpa using not_le.mpr (h p.1 h1)
  refine ⟨?_, ?_⟩
  · simp [identify_eval, hfilt]
  · simp [identify_eval, hfilt, mem_flagList]

/-- Witness for C2 at a genome whose only coverage dimension is `0.001`. -/
theorem c2_zero_coverage_sentinel_witness :
    (identify_eval (fun _ _ => 0) 0 0 0 0 0
        ⟨50, [1], [1/1000], 0⟩ ⟨50, 1000, [1], [5]⟩).mean_cp = -1
    ∧ Signal.COV_PERC ∈ (identify_eval (fun _ _ => 0) 0 0 0 0 0
        ⟨50, [1], [1/1000], 0⟩ ⟨50, 1000, [1], [5]⟩).outlying_dists :=
  c2_zero_coverage_sentinel (fun _ _ => 0) 0 0 0 0 0
    ⟨50, [1], [1/1000], 0⟩ ⟨50, 1000, [1], [5]⟩ (by norm_num [min_required_coverage])

/-! ### C8: single-dimension coverage correlation in `identify` -/

/-- C8: with a single-dimension coverage vector the correlation is defined
as `1.0` and `COV_CORR` is never flagged; with more than one dimension the
correlation is the Pearson correlation of the two coverage vectors and
`COV_CORR` is flagged exactly when it is below `cov_corr`. -/
theorem c8_single_dim_cov_corr (pearson : List ℚ → List ℚ → ℚ)
    (lb ub tdB cc cp : ℚ) (gs : GenomeRecord) (ss : ScaffoldRecord) :
    (gs.mean_coverage.length ≤ 1 →
      (identify_eval pearson lb ub tdB cc cp gs ss).corr_r = 1
      ∧ Signal.COV_CORR ∉ (identify_eval pearson lb ub tdB cc cp gs ss).outlying_dists)
    ∧ (1 < gs.mean_coverage.length →
      (identify_eval pearson lb ub tdB cc cp gs ss).corr_r = pearson gs.mean_coverage ss.coverage
      ∧ (Signal.COV_CORR ∈ (identify_eval pearson lb ub tdB cc cp gs ss).outlying_dists ↔
          pearson gs.mean_coverage ss.coverage < cc)) := by
  constructor
  · intro h
    have h' : ¬ 1 < gs.mean_coverage.length := not_lt.mpr h
    constructor
    · simp [identify_eval, h']
    · simp [identify_eval, h', mem_flagList]
  · intro h
    constructor
    · simp [identify_eval, h]
    · simp [identify_eval, h, mem_flagList]

/-- Witness for C8 at a single-dimension and a two-dimension coverage
vector. -/
theorem c8_single_dim_cov_corr_witness :
    ((identify_eval (fun _ _ => 0) 0 0 0 0 0
        ⟨50, [1], [5], 0⟩ ⟨50, 1000, [1], [5]⟩).corr_r = 1
      ∧ Signal.COV_CORR ∉ (identify_eval (fun _ _ => 0) 0 0 0 0 0
        ⟨50, [1], [5], 0⟩ ⟨50, 1000, [1], [5]⟩).outlying_dists)
    ∧ (identify_eval (fun _ _ => 0) 0 0 0 0 0
        ⟨50, [1], [5, 5], 0⟩ ⟨50, 1000, [1], [5, 5]⟩).corr_r
        = (fun _ _ => (0 : ℚ)) ([5, 5] : List ℚ) ([5, 5] : List ℚ) :=
  ⟨(c8_single_dim_cov_corr (fun _ _ => 0) 0 0 0 0 0
      ⟨50, [1], [5], 0⟩ ⟨50, 1000, [1], [5]⟩).1 (by decide),
   ((c8_single_dim_cov_corr (fun _ _ => 0) 0 0 0 0 0
      ⟨50, [1], [5, 5], 0⟩ ⟨50, 1000, [1], [5, 5]⟩).2 (by decide)).1⟩

/-! ### C10: zero qualifying coverage dimensions in `compatible` -/

/-- C10: when no dimension of the genome's mean coverage vector reaches the
fixed minimum `0.01`, `compatible` takes `np.mean` of an empty list (NaN,
modelled as `none`), the comparison of that value against the threshold is
false, so `COV_PERC` is never marked compatible and no `-1` sentinel is
produced — while `identify` auto-flags `COV_PERC` in the same situation. -/
theorem c10_compatible_empty_mean_nan (pearson : List ℚ → List ℚ → ℚ)
    (lb ub tdB cc cp : ℚ) (gs : GenomeRecord) (ss : ScaffoldRecord)
    (h : ∀ c ∈ gs.mean_coverage, c < min_required_coverage) :
    (compatible_eval pearson lb ub tdB cc cp gs ss).mean_cp = none
    ∧ Signal.COV_PERC ∉ (compatible_eval pearson lb ub tdB cc cp gs ss).compatible_dists
    ∧ Signal.COV_PERC ∈ (identify_eval pearson lb ub tdB cc cp gs ss).outlying_dists := by
  have hfilt : (gs.mean_coverage.zip ss.coverage).filter
      (fun p => decide (min_required_coverage ≤ p.1)) = [] := by
    rw [List.filter_eq_nil_iff]
    intro p hp
    have h1 : p.1 ∈ gs.mean_coverage := (List.of_mem_zip hp).1
    simpa using not_le.mpr (h p.1 h1)
  refine ⟨?_, ?_, ?_⟩
  · simp [compatible_eval, hfilt, npMean]
  · simp [compatible_eval, hfilt, npMean, mem_flagList]
  · simp [identify_eval, hfilt, mem_flagList]

/-- Witness for C10 at a genome whose only coverage dimension is `0.001`. -/
theorem c10_compatible_empty_mean_nan_witness :
    (compatible_eval (fun _ _ => 0) 0 0 0 0 0
        ⟨50, [1], [1/1000], 0⟩ ⟨50, 1000, [1], [5]⟩).mean_cp = none
    ∧ Signal.COV_PERC ∉ (compatible_eval (fun _ _ => 0) 0 0 0 0 0
        ⟨50, [1], [1/1000], 0⟩ ⟨50, 1000, [1], [5]⟩).compatible_dists
    ∧ Signal.COV_PERC ∈ (identify_eval (fun _ _ => 0) 0 0 0 0 0
        ⟨50, [1], [1/1000], 0⟩ ⟨50, 1000, [1], [5]⟩).outlying_dists :=
  c10_compatible_empty_mean_nan (fun _ _ => 0) 0 0 0 0 0
    ⟨50, [1], [1/1000], 0⟩ ⟨50, 1000, [1], [5]⟩ (by norm_num [min_required_coverage])

/-! ### C5: proportional window parameters -/

/-- C5: a proportional (float) `window_size` or `window_gap` is converted
to an absolute length from the current scaffold's own length before any
window is cut: `make_windows` with a float size behaves exactly like
`make_windows` with the integer `int(size * seq_length)`, and for
`window_size = 0.5` the effective length is `500` on a scaffold of length
`1000` and `1000` on a scaffold of length `2000`. -/
theorem c5_proportional_conversion (sid : String) (seq : List Char) (q : ℚ) (g : ℤ) :
    make_windows sid seq (.float q) (.int g)
      = make_windows sid seq (.int (pyInt (q * seq.length))) (.int g)
    ∧ (∀ seq_length : ℕ, resolveSizes (.float q) (.int g) seq_length
        = (pyInt (q * seq_length), g))
    ∧ resolveSizes (.float (1/2)) (.int 0) 1000 = (500, 0)
    ∧ resolveSizes (.float (1/2)) (.int 0) 2000 = (1000, 0) := by
  refine ⟨rfl, fun _ => rfl, by norm_num [resolveSizes, pyInt], by norm_num [resolveSizes, pyInt]⟩

/-! ### C9: unsupported parameter types are fatal -/

/-- C9: a `window_size` or `window_gap` that is neither a string, an
integer, nor a float makes `make_windows` raise a `TypeError`, and the
error aborts the whole window-generation run rather than skipping the
scaffold. -/
theorem c9_type_error_fatal (sid : String) (seq : List Char) (v : PyVal) (n : ℤ) (q : ℚ)
    (rest : List (String × List Char)) :
    make_windows sid seq .other v = .error .typeError
    ∧ make_windows sid seq (.int n) .other = .error .typeError
    ∧ make_windows sid seq (.float q) .other = .error .typeError
    ∧ windowGroups ((sid, seq) :: rest) .other v = .error .typeError
    ∧ windowGroups ((sid, seq) :: rest) (.int n) .other = .error .typeError := by
  exact ⟨rfl, rfl, rfl, rfl, rfl⟩

/-! ### C3: closest-bin admission policy -/

theorem foldl_bestStep_le (f : BinStats → ℚ) (l : List BinStats) (init : ℚ × Option String) :
    (l.foldl (bestStep f) init).1 ≤ init.1
    ∧ ∀ p ∈ l, (l.foldl (bestStep f) init).1 ≤ f p := by
  induction l generalizing init with
  | nil => exact ⟨le_refl _, by simp⟩
  | cons hd tl ih =>
    have hstep : (bestStep f init hd).1 ≤ init.1 ∧ (bestStep f init hd).1 ≤ f hd := by
      by_cases hc : f hd < init.1
      · simp only [bestStep, if_pos hc]
        exact ⟨le_of_lt hc, le_refl _⟩
      · simp only [bestStep, if_neg hc]
        exact ⟨le_refl _, le_of_not_lt hc⟩
    obtain ⟨h1, h2⟩ := ih (bestStep f init hd)
    rw [List.foldl_cons]
    refine ⟨le_trans h1 hstep.1, ?_⟩
    intro p hp
    rcases List.mem_cons.mp hp with rfl | hp'
    · exact le_trans h1 hstep.2
    · exact h2 p hp'

theorem foldl_bestStep_cases (f : BinStats → ℚ) (l : List BinStats) (init : ℚ × Option String) :
    l.foldl (bestStep f) init = init
    ∨ ∃ p ∈ l, l.foldl (bestStep f) init = (f p, some p.1) := by
  induction l generalizing init with
  | nil => exact Or.inl rfl
  | cons hd tl ih =>
    rw [List.foldl_cons]
    rcases ih (bestStep f init hd) with h | ⟨p, hp, h⟩
    · rw [h]
      by_cases hc : f hd < init.1
      · exact Or.inr ⟨hd, List.mem_cons_self hd tl, by simp [bestStep, if_pos hc]⟩
      · exact Or.inl (by simp [bestStep, if_neg hc])
    · exact Or.inr ⟨p, List.mem_cons_of_mem hd hp, h⟩

/-- When the running minimum of `add_compatible_closest` names a bin, that
bin's distance is a minimum over all rows of the scaffold's table. -/
theorem bestEntry_spec (f : BinStats → ℚ) (l : List BinStats) (b : String)
    (h : (bestEntry f l).2 = some b) :
    ∃ p ∈ l, p.1 = b ∧ ∀ q ∈ l, f p ≤ f q := by
  rcases foldl_bestStep_cases f l ((10 : ℚ) ^ 9, none) with h1 | ⟨p, hp, h1⟩
  · rw [bestEntry, h1] at h
    simp at h
  · refine ⟨p, hp, ?_, ?_⟩
    · rw [bestEntry, h1] at h
      simpa using h
    · intro q hq
      have hle := (foldl_bestStep_le f l ((10 : ℚ) ^ 9, none)).2 q hq
      rw [h1] at hle
      exact hle

/-- The single tracking pass of `add_compatible_closest` computes the three
independent running minima. -/
theorem closestBins_eq (l : List BinStats) :
    closestBins l = (bestEntry (fun r => r.2.1) l,
      bestEntry (fun r => r.2.2.1) l, bestEntry (fun r => r.2.2.2) l) := by
  suffices h : ∀ (a b c : ℚ × Option String),
      l.foldl (fun s p => (bestStep (fun r => r.2.1) s.1 p,
          bestStep (fun r => r.2.2.1) s.2.1 p,
          bestStep (fun r => r.2.2.2) s.2.2 p)) (a, b, c)
        = (l.foldl (bestStep (fun r => r.2.1)) a,
           l.foldl (bestStep (fun r => r.2.2.1)) b,
           l.foldl (bestStep (fun r => r.2.2.2)) c) by
    exact h _ _ _
  induction l with
  | nil => intro a b c; rfl
  | cons hd tl ih =>
    intro a b c
    simp only [List.foldl_cons]
    exact ih _ _ _

/-- C3: `add_compatible_closest` admits a scaffold to the current bin if
and only if the minimum-GC-distance bin, the minimum-TD-distance bin and
the minimum-coverage-distance bin over the scaffold's table rows all equal
that bin (`bestEntry_spec`-style minimality holds for each tracked
minimum); when the GC minimum and the coverage minimum name different
bins, the scaffold is admitted to no bin at all. -/
theorem c3_add_compatible_closest (cur_bin_id : String) (bin_stats : List BinStats) :
    (add_compatible_closest_admits cur_bin_id bin_stats = true ↔
      ((bestEntry (fun r => r.2.1) bin_stats).2 = some cur_bin_id
        ∧ (bestEntry (fun r => r.2.2.1) bin_stats).2 = some cur_bin_id
        ∧ (bestEntry (fun r => r.2.2.2) bin_stats).2 = some cur_bin_id))
    ∧ (∀ (f : BinStats → ℚ) (b : String), (bestEntry f bin_stats).2 = some b →
        ∃ p ∈ bin_stats, p.1 = b ∧ ∀ q ∈ bin_stats, f p ≤ f q)
    ∧ ((bestEntry (fun r => r.2.1) bin_stats).2
          ≠ (bestEntry (fun r => r.2.2.2) bin_stats).2 →
        ∀ b, add_compatible_closest_admits b bin_stats = false) := by
  have hiff : ∀ b, add_compatible_closest_admits b bin_stats = true ↔
      ((bestEntry (fun r => r.2.1) bin_stats).2 = some b
        ∧ (bestEntry (fun r => r.2.2.1) bin_stats).2 = some b
        ∧ (bestEntry (fun r => r.2.2.2) bin_stats).2 = some b) := by
    intro b
    rw [add_compatible_closest_admits, closestBins_eq]
    simp only [Bool.and_eq_true, beq_iff_eq]
    constructor
    · rintro ⟨⟨h1, h2⟩, h3⟩
      exact ⟨h3, h1.symm.trans h3, h2.symm.trans (h1.symm.trans h3)⟩
    · rintro ⟨h1, h2, h3⟩
      exact ⟨⟨h1.trans h2.symm, h2.trans h3.symm⟩, h1⟩
  refine ⟨hiff cur_bin_id, fun f b h => bestEntry_spec f bin_stats b h, ?_⟩
  intro hne b
  cases hb : add_compatible_closest_admits b bin_stats with
  | false => rfl
  | true =>
    obtain ⟨h1, _h2, h3⟩ := (hiff b).mp hb
    exact absurd (h1.trans h3.symm) hne

unseal Rat.mul Rat.add Rat.sub Rat.inv in
/-- Witness for C3: a scaffold closest to bin `B` in GC and TD but to bin
`C` in coverage is admitted to neither bin. -/
theorem c3_add_compatible_closest_witness :
    add_compatible_closest_admits "B" [("B", (1, 1, 1)), ("C", (2, 2, 0))] = false
    ∧ add_compatible_closest_admits "C" [("B", (1, 1, 1)), ("C", (2, 2, 0))] = false :=
  ⟨(c3_add_compatible_closest "B" [("B", (1, 1, 1)), ("C", (2, 2, 0))]).2.2 (by decide) "B",
   (c3_add_compatible_closest "C" [("B", (1, 1, 1)), ("C", (2, 2, 0))]).2.2 (by decide) "C"⟩

/-! ### C6: `compatible` mirrors `identify` signal by signal -/

/-- C6: for the same statistics, thresholds and resolved reference bounds,
with a genome coverage vector of more than one dimension of which at least
one dimension reaches the minimum-coverage threshold, `compatible` marks a
signal as compatible exactly when `identify` would not flag it as an
outlier. -/
theorem c6_compatible_mirrors_identify (pearson : List ℚ → List ℚ → ℚ)
    (lb ub tdB cc cp : ℚ) (gs : GenomeRecord) (ss : ScaffoldRecord)
    (hdim : 1 < gs.mean_coverage.length)
    (hlen : ss.coverage.length = gs.mean_coverage.length)
    (hmin : ∃ c ∈ gs.mean_coverage, min_required_coverage ≤ c) :
    ∀ s : Signal,
      s ∈ (compatible_eval pearson lb ub tdB cc cp gs ss).compatible_dists
        ↔ s ∉ (identify_eval pearson lb ub tdB cc cp gs ss).outlying_dists := by
  intro s
  -- the filtered qualifying-dimension list is shared and nonempty
  obtain ⟨c, hc, hcge⟩ := hmin
  obtain ⟨i, hi, hget⟩ := List.mem_iff_getElem.mp hc
  have hzl : (gs.mean_coverage.zip ss.coverage).length = gs.mean_coverage.length := by
    rw [List.length_zip, hlen, min_self]
  have hiz : i < (gs.mean_coverage.zip ss.coverage).length := by
    rw [hzl]; exact hi
  have hmemz : (gs.mean_coverage.zip ss.coverage)[i] ∈ gs.mean_coverage.zip ss.coverage :=
    List.getElem_mem hiz
  have hpred : decide (min_required_coverage
      ≤ ((gs.mean_coverage.zip ss.coverage)[i]).1) = true := by
    rw [List.getElem_zip]
    simpa [hget] using hcge
  have hmemf : (gs.mean_coverage.zip ss.coverage)[i]
      ∈ (gs.mean_coverage.zip ss.coverage).filter
          (fun p => decide (min_required_coverage ≤ p.1)) :=
    List.mem_filter.mpr ⟨hmemz, hpred⟩
  have hne : (gs.mean_coverage.zip ss.coverage).filter
      (fun p => decide (min_required_coverage ≤ p.1)) ≠ [] :=
    List.ne_nil_of_mem hmemf
  have hmaps : ((gs.mean_coverage.zip ss.coverage).filter
        (fun p => decide (min_required_coverage ≤ p.1))).map
        (fun p => |p.1 - p.2| * 100 / p.1)
      = ((gs.mean_coverage.zip ss.coverage).filter
        (fun p => decide (min_required_coverage ≤ p.1))).map
        (fun p => |p.2 - p.1| * 100 / p.1) :=
    List.map_congr_left (fun p _ => by rw [abs_sub_comm])
  have hnem : (((gs.mean_coverage.zip ss.coverage).filter
        (fun p => decide (min_required_coverage ≤ p.1))).map
        (fun p => |p.2 - p.1| * 100 / p.1)).isEmpty = false := by
    rw [List.isEmpty_eq_false]
    simpa using hne
  simp only [identify_eval, compatible_eval, hmaps, npMean, hnem, mem_flagList]
  cases s <;> simp [hdim, not_or, not_lt]

unseal Rat.mul Rat.add Rat.sub Rat.inv in
/-- Witness for C6 at a two-dimension coverage vector with qualifying
coverage, checked on the GC signal. -/
theorem c6_compatible_mirrors_identify_witness :
    Signal.GC ∈ (compatible_eval (fun _ _ => 1) (-4/100) (4/100) 1 0 10
        ⟨50, [1], [5, 5], 0⟩ ⟨50, 1000, [1], [5, 5]⟩).compatible_dists
      ↔ Signal.GC ∉ (identify_eval (fun _ _ => 1) (-4/100) (4/100) 1 0 10
        ⟨50, [1], [5, 5], 0⟩ ⟨50, 1000, [1], [5, 5]⟩).outlying_dists :=
  c6_compatible_mirrors_identify (fun _ _ => 1) (-4/100) (4/100) 1 0 10
    ⟨50, [1], [5, 5], 0⟩ ⟨50, 1000, [1], [5, 5]⟩ (by decide) (by decide)
    (by decide) Signal.GC

/-! ### C4: window retention -/

/-- Length of the slice `sequence[i : i + w]` for nonnegative indices. -/
theorem pySlice_length_100 (s : List Char) (i : ℕ) :
    (pySlice s (i : ℤ) ((i : ℤ) + 100)).length
      = min (i + 100) s.length - min i s.length := by
  have h1 : ¬ ((i : ℤ) < 0) := by omega
  have h2 : ¬ ((i : ℤ) + 100 < 0) := by omega
  simp only [pySlice, pyIdx, if_neg h1, if_neg h2, List.length_drop, List.length_take]
  omega

/-- Counting the indices below a bound inside `List.range`. -/
theorem countP_range_lt (N M : ℕ) (h : M ≤ N) :
    (List.range N).countP (fun k => decide (k < M)) = M := by
  induction N with
  | zero =>
    have h0 : M = 0 := Nat.le_zero.mp h
    subst h0
    rfl
  | succ n ih =>
    by_cases hM : M ≤ n
    · rw [List.range_succ, List.countP_append, ih hM]
      have hd : decide (n < M) = false := by
        simp only [decide_eq_false_iff_not]
        omega
      simp [List.countP_cons, hd]
    · have hMn : M = n + 1 := by omega
      subst hMn
      have hall : ∀ a ∈ List.range (n + 1), decide (a < n + 1) = true := by
        intro a ha
        simp only [List.mem_range] at ha
        simpa using ha
      rw [List.countP_eq_length.mpr hall, List.length_range]

set_option maxRecDepth 8000 in
/-- C4: `make_windows` slides from offset 0 with stride
`window_size + window_gap` and retains a window exactly when the extracted
slice has at least 100 bases, never padding it; with absolute
`window_size = 100` and `window_gap = 0` every retained window has length
exactly 100 and exactly `L / 100` windows are kept, the trailing partial
window being dropped. -/
theorem c4_window_retention (sid : String) (seq : List Char) :
    (∀ (a b : ℤ) (ids : List WindowId) (wins : List (List Char)),
        make_windows sid seq (.int a) (.int b) = .ok (ids, wins) →
        ∀ w ∈ wins, 100 ≤ w.length)
    ∧ ∃ ids wins, make_windows sid seq (.int 100) (.int 0) = .ok (ids, wins)
        ∧ (∀ w ∈ wins, w.length = 100)
        ∧ wins.length = seq.length / 100 := by
  constructor
  · intro a b ids wins h w hw
    have hbind : make_windows sid seq (.int a) (.int b)
        = Except.bind (pyRange0 seq.length (a + b)) (fun starts =>
            Except.ok
              (((starts.filter
                  (fun (i : ℕ) => decide (100 ≤ (pySlice seq (i : ℤ) ((i : ℤ) + a)).length))).map
                  (fun (i : ℕ) => ⟨sid, (i : ℤ), min ((i : ℤ) + a) (seq.length : ℤ)⟩),
               (starts.filter
                  (fun (i : ℕ) => decide (100 ≤ (pySlice seq (i : ℤ) ((i : ℤ) + a)).length))).map
                  (fun (i : ℕ) => pySlice seq (i : ℤ) ((i : ℤ) + a))))) := rfl
    rw [hbind] at h
    cases hr : pyRange0 seq.length (a + b) with
    | error e =>
      rw [hr] at h
      simp [Except.bind] at h
    | ok starts =>
      rw [hr] at h
      simp only [Except.bind, Except.ok.injEq, Prod.mk.injEq] at h
      obtain ⟨_hids, hwins⟩ := h
      rw [← hwins] at hw
      obtain ⟨i, hik, hiw⟩ := List.mem_map.mp hw
      have hpred := (List.mem_filter.mp hik).2
      rw [hiw] at hpred
      exact of_decide_eq_true hpred
  · refine ⟨(((List.range ((seq.length + 100 - 1) / 100)).map (· * 100)).filter
        (fun (i : ℕ) => decide (100 ≤ (pySlice seq (i : ℤ) ((i : ℤ) + 100)).length))).map
        (fun (i : ℕ) => ⟨sid, (i : ℤ), min ((i : ℤ) + 100) (seq.length : ℤ)⟩),
      (((List.range ((seq.length + 100 - 1) / 100)).map (· * 100)).filter
        (fun (i : ℕ) => decide (100 ≤ (pySlice seq (i : ℤ) ((i : ℤ) + 100)).length))).map
        (fun (i : ℕ) => pySlice seq (i : ℤ) ((i : ℤ) + 100)),
      by unfold make_windows coerceSizeArg; rfl, ?_, ?_⟩
    · intro w hw
      obtain ⟨i, hik, hiw⟩ := List.mem_map.mp hw
      have hpred := of_decide_eq_true (List.mem_filter.mp hik).2
      subst hiw
      rw [pySlice_length_100] at hpred ⊢
      omega
    · rw [List.length_map, ← List.countP_eq_length_filter, List.countP_map]
      have hcongr : ∀ k ∈ List.range ((seq.length + 100 - 1) / 100),
          ((fun (i : ℕ) => decide (100 ≤ (pySlice seq (i : ℤ) ((i : ℤ) + 100)).length))
              ∘ (· * 100)) k = true
            ↔ decide (k < seq.length / 100) = true := by
        intro k _
        simp only [Function.comp_apply, decide_eq_true_iff]
        rw [pySlice_length_100]
        omega
      rw [List.countP_congr hcongr, countP_range_lt]
      omega

set_option maxRecDepth 4000 in
/-- Witness for C4 on a 250-base scaffold: two windows of exactly 100 bases
are produced and each retained window has at least 100 bases. -/
theorem c4_window_retention_witness :
    make_windows "s" (List.replicate 250 'A') (.int 100) (.int 0)
      = .ok ([⟨"s", 0, 100⟩, ⟨"s", 100, 200⟩],
             [List.replicate 100 'A', List.replicate 100 'A'])
    ∧ 100 ≤ (List.replicate 100 'A').length :=
  ⟨rfl,
   (c4_window_retention "s" (List.replicate 250 'A')).1 100 0
     [⟨"s", 0, 100⟩, ⟨"s", 100, 200⟩]
     [List.replicate 100 'A', List.replicate 100 'A'] rfl
     (List.replicate 100 'A') (by decide)⟩

/-! ### C7: links join consecutive windows of one parent -/

theorem exceptBind_ok {ε α β : Type} (a : α) (f : α → Except ε β) :
    (Except.ok a >>= f) = f a := rfl

theorem exceptBind_error {ε α β : Type} (e : ε) (f : α → Except ε β) :
    ((Except.error e : Except ε α) >>= f) = Except.error e := rfl

/-- A pair is produced by the consecutive-pair walk exactly when its two
components are adjacent, in order, in the walked list. -/
theorem mem_consecutivePairs {α : Type} (l : List α) (pr : α × α) :
    pr ∈ consecutivePairs l ↔ ∃ l₁ l₂, l = l₁ ++ pr.1 :: pr.2 :: l₂ := by
  induction l with
  | nil =>
    simp only [consecutivePairs]
    constructor
    · intro h
      simp at h
    · rintro ⟨l₁, l₂, he⟩
      exact absurd (congrArg List.length he) (by simp; omega)
  | cons a t ih =>
    cases t with
    | nil =>
      simp only [consecutivePairs]
      constructor
      · intro h
        simp at h
      · rintro ⟨l₁, l₂, he⟩
        exact absurd (congrArg List.length he) (by simp; omega)
    | cons b t' =>
      simp only [consecutivePairs, List.mem_cons]
      constructor
      · rintro (h | h)
        · exact ⟨[], t', by simp [h]⟩
        · obtain ⟨l₁, l₂, he⟩ := ih.mp h
          exact ⟨a :: l₁, l₂, by rw [List.cons_append, ← he]⟩
      · rintro ⟨l₁, l₂, he⟩
        cases l₁ with
        | nil =>
          simp only [List.nil_append] at he
          injection he with h1 h2
          injection h2 with h3 h4
          left
          rw [Prod.ext_iff]
          exact ⟨h1.symm, h3.symm⟩
        | cons x l₁' =>
          simp only [List.cons_append] at he
          injection he with h1 h2
          exact Or.inr (ih.mpr ⟨l₁', l₂, h2⟩)

/-- Every window id produced by `make_windows` carries the parent scaffold
id it was called with. -/
theorem make_windows_parent (sid : String) (seq : List Char) (ws wg : PyVal)
    (ids : List WindowId) (wins : List (List Char))
    (h : make_windows sid seq ws wg = .ok (ids, wins)) :
    ∀ w ∈ ids, w.seqId = sid := by
  cases hws : coerceSizeArg ws with
  | error e => simp [make_windows, hws, exceptBind_error] at h
  | ok wsn =>
    cases hwg : coerceSizeArg wg with
    | error e => simp [make_windows, hws, hwg, exceptBind_ok, exceptBind_error] at h
    | ok wgn =>
      cases hr : pyRange0 seq.length
          ((resolveSizes wsn wgn seq.length).1 + (resolveSizes wsn wgn seq.length).2) with
      | error e =>
        simp [make_windows, hws, hwg, hr, exceptBind_ok, exceptBind_error] at h
      | ok starts =>
        simp only [make_windows, hws, hwg, hr, exceptBind_ok, pure, Except.pure,
          Except.ok.injEq, Prod.mk.injEq] at h
        obtain ⟨hids, _⟩ := h
        rw [← hids]
        intro w hw
        obtain ⟨i, _, hiw⟩ := List.mem_map.mp hw
        rw [← hiw]

/-- Every group built by the window-generation loop pairs a scaffold id
with window ids that carry that same scaffold id. -/
theorem windowGroups_parent (seqs : List (String × List Char)) (ws wg : PyVal)
    (groups : List (String × List WindowId))
    (h : windowGroups seqs ws wg = .ok groups) :
    ∀ g ∈ groups, ∀ w ∈ g.2, w.seqId = g.1 := by
  induction seqs generalizing groups with
  | nil =>
    simp only [windowGroups, List.mapM_nil, pure, Except.pure, Except.ok.injEq] at h
    rw [← h]
    simp
  | cons p rest ih =>
    rw [windowGroups, List.mapM_cons] at h
    cases hmk : make_windows p.1 p.2 ws wg with
    | error e =>
      rw [hmk] at h
      simp [exceptBind_error] at h
    | ok r =>
      rw [hmk, exceptBind_ok] at h
      cases hrest : windowGroups rest ws wg with
      | error e =>
        rw [windowGroups] at hrest
        rw [hrest] at h
        simp [exceptBind_ok, exceptBind_error] at h
      | ok gs' =>
        rw [windowGroups] at hrest
        rw [hrest] at h
        simp only [exceptBind_ok, pure, Except.pure, Except.ok.injEq] at h
        rw [← h]
        intro g hg
        rcases List.mem_cons.mp hg with rfl | hg'
        · exact make_windows_parent p.1 p.2 ws wg r.1 r.2 (by rw [hmk])
        · exact ih gs' (by rw [windowGroups, hrest]) g hg'

/-- C7: every pair written by `write_links` consists of two consecutive
window ids of a single parent scaffold's ordered window list (so the two
ids always decode to the same parent scaffold id), and every consecutive
pair of every scaffold's window list is written. -/
theorem c7_links_consecutive_same_parent (seqs : List (String × List Char))
    (ws wg : PyVal) (groups : List (String × List WindowId))
    (hg : windowGroups seqs ws wg = .ok groups) :
    (∀ pr ∈ write_links_pairs groups,
        pr.1.seqId = pr.2.seqId
        ∧ ∃ g ∈ groups, ∃ l₁ l₂, g.2 = l₁ ++ pr.1 :: pr.2 :: l₂)
    ∧ (∀ g ∈ groups, ∀ (l₁ : List WindowId) (a b : WindowId) (l₂ : List WindowId),
        g.2 = l₁ ++ a :: b :: l₂ → (a, b) ∈ write_links_pairs groups) := by
  constructor
  · intro pr hpr
    obtain ⟨cl, hcl, hprc⟩ := List.mem_flatten.mp hpr
    obtain ⟨g, hgin, hcg⟩ := List.mem_map.mp hcl
    rw [← hcg] at hprc
    obtain ⟨l₁, l₂, he⟩ := (mem_consecutivePairs g.2 pr).mp hprc
    have h1 : pr.1 ∈ g.2 := by
      rw [he]
      simp
    have h2 : pr.2 ∈ g.2 := by
      rw [he]
      simp
    have hp := windowGroups_parent seqs ws wg groups hg g hgin
    rw [hp pr.1 h1, hp pr.2 h2]
    exact ⟨rfl, g, hgin, l₁, l₂, he⟩
  · intro g hgin l₁ a b l₂ he
    refine List.mem_flatten.mpr ⟨consecutivePairs g.2, List.mem_map.mpr ⟨g, hgin, rfl⟩, ?_⟩
    exact (mem_consecutivePairs g.2 (a, b)).mpr ⟨l₁, l₂, he⟩

set_option maxRecDepth 8000 in
/-- Witness for C7 on a 250-base scaffold producing two linked windows. -/
theorem c7_links_consecutive_same_parent_witness :
    (⟨"s", 0, 100⟩ : WindowId).seqId = (⟨"s", 100, 200⟩ : WindowId).seqId
    ∧ ∃ g ∈ [("s", [(⟨"s", 0, 100⟩ : WindowId), ⟨"s", 100, 200⟩])],
        ∃ l₁ l₂, g.2 = l₁ ++ (⟨"s", 0, 100⟩ : WindowId) :: (⟨"s", 100, 200⟩ : WindowId) :: l₂ :=
  (c7_links_consecutive_same_parent [("s", List.replicate 250 'A')] (.int 100) (.int 0)
      [("s", [⟨"s", 0, 100⟩, ⟨"s", 100, 200⟩])]
      (by unfold windowGroups make_windows coerceSizeArg; rfl)).1
    (⟨"s", 0, 100⟩, ⟨"s", 100, 200⟩) (by simp [write_links_pairs, consecutivePairs])

end RefineM
